import Mathlib

/-!
Verification development for the Hikvision camera sync scripts
(`sync_hikvision_cameras.py` and `process_hikvision_folder.py`).

The Python scripts are shallowly embedded: the destination directory is a
map from filenames to file sizes, the segment decoder and the filesystem
are abstracted as per-segment environments, and every stateful loop is a
structural fold over the segment list.  Machine integers do not occur in
the scripts (all counters are unbounded Python ints), so `Nat`/`Int` are
used directly.
-/

namespace HikSync

/-! ## Timestamps and canonical filenames

`datetime` values are modelled as a six-field record.  Python compares
`datetime` objects chronologically, which for in-range fields coincides
with the mixed-radix key order below.  `strftime` with the fixed patterns
used by the scripts is modelled by the `fmt*` functions.
-/

/-- Model of a Python `datetime` value (wall-clock fields only). -/
structure DT where
  year : Nat
  month : Nat
  day : Nat
  hour : Nat
  minute : Nat
  second : Nat
deriving DecidableEq, Repr

/-- Mixed-radix key: chronological order of valid datetimes. -/
def dtKey (d : DT) : Nat :=
  ((((d.year * 13 + d.month) * 32 + d.day) * 24 + d.hour) * 60 + d.minute) * 60 + d.second

/-- Model of Python `datetime <` comparison. -/
def dtLt (a b : DT) : Bool := dtKey a < dtKey b

/-- Two-digit zero-padded decimal rendering, as in `strftime` `%m`/`%d`/`%H`/`%M`/`%S`. -/
def pad2List (n : Nat) : List Char :=
  [Nat.digitChar (n / 10 % 10), Nat.digitChar (n % 10)]

/-- Four-digit zero-padded decimal rendering, as in `strftime` `%Y`. -/
def pad4List (n : Nat) : List Char :=
  pad2List (n / 100) ++ pad2List (n % 100)

/-- Rendering of `strftime("%Y-%m-%d_%H-%M-%S")`, the filename timestamp. -/
def fmtFilenameTs (d : DT) : String :=
  ⟨pad4List d.year ++ '-' :: pad2List d.month ++ '-' :: pad2List d.day ++
    '_' :: pad2List d.hour ++ '-' :: pad2List d.minute ++ '-' :: pad2List d.second⟩

/-- Canonical output filename `f"{timestamp_formatted}-{camera_tag}.{file_extension}"`. -/
def canonicalName (d : DT) (tag ext : String) : String :=
  fmtFilenameTs d ++ "-" ++ tag ++ "." ++ ext

/-! ## Filename collision resolution (`get_unique_filename`)

From `process_hikvision_folder.py`.  The Python loop carries a `counter`
starting at 1 and breaks once `counter`, after being incremented, exceeds
1000; the fuel argument below equals `1000 - counter`, so fuel 0 is
exactly the `counter > 1000` break.
-/

/-- Candidate path `base_path/name`. -/
def pathJoin (base name : String) : String := base ++ "/" ++ name

/-- The first candidate `f"{timestamp}-{cam_tag}.{ext}"`. -/
def baseFilename (ts tag ext : String) : String := ts ++ "-" ++ tag ++ "." ++ ext

/-- The suffixed candidate `f"{timestamp}-{cam_tag}_{counter}.{ext}"`. -/
def suffixedName (ts tag ext : String) (counter : Nat) : String :=
  ts ++ "-" ++ tag ++ "_" ++ toString counter ++ "." ++ ext

/-- The `while filepath.exists()` loop of `get_unique_filename`; `ex` is the
filesystem existence predicate, `fuel = 1000 - counter`, so fuel 0 is
exactly the `counter > 1000` break after the reassignment of `filepath`. -/
def getUniqueLoop (ex : String → Bool) (base ts tag ext : String) (counter : Nat) :
    Nat → String → String
  | 0, filepath =>
    if ex filepath then pathJoin base (suffixedName ts tag ext counter) else filepath
  | fuel + 1, filepath =>
    if ex filepath then
      getUniqueLoop ex base ts tag ext (counter + 1) fuel
        (pathJoin base (suffixedName ts tag ext counter))
    else filepath

/-- Model of `HikvisionSync.get_unique_filename` (`counter = 1`, so 999
iterations remain before the cap). -/
def get_unique_filename (ex : String → Bool) (base ts tag ext : String) : String :=
  getUniqueLoop ex base ts tag ext 1 999 (pathJoin base (baseFilename ts tag ext))

/-! ## Segment start-time parsing (`process_hikvision_folder.process_camera`)

The folder variant accepts a `cust_startTime` that is either a `datetime`
value or a string.  Strings are parsed first with
`datetime.strptime(s, '%Y-%m-%d %H:%M:%S')` and, on `ValueError`, with
`datetime.fromisoformat(s.replace('Z', '+00:00'))`.  Both stdlib parsers
are modelled on the zero-padded forms the scripts produce and consume
(`strptime` with exactly-two-digit fields; `fromisoformat` restricted to
`YYYY-MM-DD[{T, }HH:MM:SS][±HH:MM]`).
-/

/-- Decimal digit value of a character, `none` for non-digits. -/
def digitVal? (c : Char) : Option Nat :=
  if '0' ≤ c ∧ c ≤ '9' then some (c.toNat - 48) else none

/-- Consume exactly two decimal digits. -/
def parse2 : List Char → Option (Nat × List Char)
  | c1 :: c2 :: rest =>
    match digitVal? c1, digitVal? c2 with
    | some a, some b => some (10 * a + b, rest)
    | _, _ => none
  | _ => none

/-- Consume exactly four decimal digits. -/
def parse4 (l : List Char) : Option (Nat × List Char) :=
  match parse2 l with
  | none => none
  | some (a, r) =>
    match parse2 r with
    | none => none
    | some (b, r2) => some (100 * a + b, r2)

/-- Consume one expected character. -/
def expectChar (c : Char) : List Char → Option (List Char)
  | x :: rest => if x = c then some rest else none
  | [] => none

/-- Gregorian leap-year test. -/
def isLeap (y : Nat) : Bool := (y % 4 = 0 ∧ y % 100 ≠ 0) ∨ y % 400 = 0

/-- Number of days in a month. -/
def daysInMonth (y m : Nat) : Nat :=
  if m = 2 then (if isLeap y then 29 else 28)
  else if m = 4 ∨ m = 6 ∨ m = 9 ∨ m = 11 then 30
  else 31

/-- Field-range validity, as enforced by the Python `datetime` constructor. -/
def validDT (d : DT) : Bool :=
  1 ≤ d.year ∧ d.year ≤ 9999 ∧ 1 ≤ d.month ∧ d.month ≤ 12 ∧
    1 ≤ d.day ∧ d.day ≤ daysInMonth d.year d.month ∧
    d.hour ≤ 23 ∧ d.minute ≤ 59 ∧ d.second ≤ 59

/-- Parse `YYYY-MM-DD` and return the remaining input. -/
def parseDate (l : List Char) : Option (Nat × Nat × Nat × List Char) :=
  match parse4 l with
  | none => none
  | some (y, r1) =>
    match expectChar '-' r1 with
    | none => none
    | some r2 =>
      match parse2 r2 with
      | none => none
      | some (m, r3) =>
        match expectChar '-' r3 with
        | none => none
        | some r4 =>
          match parse2 r4 with
          | none => none
          | some (d, r5) => some (y, m, d, r5)

/-- Parse `HH:MM:SS` and return the remaining input. -/
def parseTime (l : List Char) : Option (Nat × Nat × Nat × List Char) :=
  match parse2 l with
  | none => none
  | some (h, r1) =>
    match expectChar ':' r1 with
    | none => none
    | some r2 =>
      match parse2 r2 with
      | none => none
      | some (mi, r3) =>
        match expectChar ':' r3 with
        | none => none
        | some r4 =>
          match parse2 r4 with
          | none => none
          | some (s, r5) => some (h, mi, s, r5)

/-- Model of `datetime.strptime(s, '%Y-%m-%d %H:%M:%S')`: `none` on `ValueError`. -/
def strptimeFixed (s : String) : Option DT :=
  match parseDate s.data with
  | none => none
  | some (y, m, d, r) =>
    match expectChar ' ' r with
    | none => none
    | some r2 =>
      match parseTime r2 with
      | none => none
      | some (h, mi, sec, rest) =>
        if rest = [] ∧ validDT ⟨y, m, d, h, mi, sec⟩ then some ⟨y, m, d, h, mi, sec⟩
        else none

/-- Accept an empty tail or a valid `±HH:MM` UTC-offset tail. -/
def validOffsetTail (l : List Char) : Bool :=
  match l with
  | [] => true
  | c :: rest =>
    if c = '+' ∨ c = '-' then
      match parse2 rest with
      | none => false
      | some (oh, r1) =>
        match expectChar ':' r1 with
        | none => false
        | some r2 =>
          match parse2 r2 with
          | none => false
          | some (om, r3) => r3 = [] ∧ oh ≤ 23 ∧ om ≤ 59
    else false

/-- Model of `datetime.fromisoformat`, restricted to
`YYYY-MM-DD[{T, }HH:MM:SS][±HH:MM]`.  The offset does not change the
wall-clock fields, which are all that the filename codec reads. -/
def fromisoformatModel (s : String) : Option DT :=
  match parseDate s.data with
  | none => none
  | some (y, m, d, r) =>
    match r with
    | [] => if validDT ⟨y, m, d, 0, 0, 0⟩ then some ⟨y, m, d, 0, 0, 0⟩ else none
    | sep :: r1 =>
      if sep = 'T' ∨ sep = ' ' then
        match parseTime r1 with
        | none => none
        | some (h, mi, sec, rest) =>
          if validOffsetTail rest ∧ validDT ⟨y, m, d, h, mi, sec⟩ then
            some ⟨y, m, d, h, mi, sec⟩
          else none
      else none

/-- Model of `s.replace('Z', '+00:00')` (every occurrence is replaced). -/
def replaceZ (s : String) : String :=
  ⟨s.data.flatMap fun c => if c = 'Z' then ['+', '0', '0', ':', '0', '0'] else [c]⟩

/-- A `cust_startTime` value: a native `datetime` or a string. -/
inductive TimeVal where
  | str (s : String)
  | dt (d : DT)
deriving DecidableEq, Repr

/-- Start-time handling of `process_hikvision_folder.process_camera`:
`segment.get('cust_startTime')` is skipped when falsy; a string is parsed
with the fixed pattern, then with ISO-8601 after `Z` replacement, and
skipped when both fail; any other value is used as the datetime. -/
def parseSegmentStart (v : Option TimeVal) : Option DT :=
  match v with
  | none => none
  | some (.dt d) => some d
  | some (.str s) =>
    if s = "" then none
    else
      match strptimeFixed s with
      | some d => some d
      | none => fromisoformatModel (replaceZ s)

/-- Canonical filename induced by a raw `cust_startTime` value, `none`
when the segment is skipped. -/
def canonicalOfStart (v : Option TimeVal) (tag ext : String) : Option String :=
  (parseSegmentStart v).map fun d => canonicalName d tag ext

/-- Rendering of a datetime in the fixed `strptime` pattern
`YYYY-MM-DD HH:MM:SS`. -/
def fmtFixed (d : DT) : String :=
  ⟨pad4List d.year ++ '-' :: pad2List d.month ++ '-' :: pad2List d.day ++
    ' ' :: pad2List d.hour ++ ':' :: pad2List d.minute ++ ':' :: pad2List d.second⟩

/-- Rendering of a datetime in ISO-8601 form with a trailing `Z`. -/
def fmtISOZ (d : DT) : String :=
  ⟨pad4List d.year ++ '-' :: pad2List d.month ++ '-' :: pad2List d.day ++
    'T' :: pad2List d.hour ++ ':' :: pad2List d.minute ++ ':' :: pad2List d.second ++ ['Z']⟩

/-! ## Media sync engine (`HikvisionSync._process_media`)

The destination media directory is a map `Disk` from filenames to sizes of
the regular files it holds.  The membership set built from `os.listdir`
(filtered by `os.path.isfile`) is therefore `fun n => (D n).isSome` — note
it carries no size information.  Each segment comes with the environment
data that determines what the external decoder and the fast byte-copy
path would do: every write of the per-segment extraction chain targets
the single path `destination_file_path`, so the chain is a function of
the segment environment and the current content at that one name.
-/

/-- Destination directory state: filename to size of the regular file. -/
def Disk : Type := String → Option Nat

/-- Membership set built from `os.listdir` + `os.path.isfile`. -/
def initialFilesSet (D : Disk) : String → Bool := fun n => (D n).isSome

/-- Per-segment environment: the start time the adapter reported, how long
the extraction attempt would run, the byte-range metadata seen by
`_extract_video_fast`, and the behaviour of the decoder fallback. -/
structure SegEnv where
  startTime : Option DT
  duration : Nat
  fastSrcLen : Nat
  fastStartOffset : Nat
  fastEndOffset : Nat
  fastOpenOk : Bool
  fastFailAfter : Option Nat
  adapterRaises : Bool
  adapterReported : Bool
  adapterWrite : Option Nat
  timeoutLeftover : Option Nat
deriving Repr

/-- Configuration slice of `_process_media` for one (camera, media kind). -/
structure MediaCfg where
  cameraTag : String
  mediaIsVideo : Bool
  cutoff : Option DT
  useFastExtraction : Bool
  sameFilesystem : Bool
  extractionTimeoutSeconds : Int
deriving Repr

/-- File extension chosen by `_process_media`. -/
def fileExtension (cfg : MediaCfg) : String := if cfg.mediaIsVideo then "mp4" else "jpg"

/-- The alarm value actually passed to `extraction_timeout`:
`self.extraction_timeout_seconds if self.extraction_timeout_seconds > 0 else 999999`. -/
def effectiveTimeout (cfgSeconds : Int) : Int :=
  if cfgSeconds > 0 then cfgSeconds else 999999

/-- Classification of one segment by `_process_media`'s counters. -/
inductive SegOutcome where
  | new
  | existing
  | skippedOld
  | skippedNoTimestamp
  | failed
  | timedOut
deriving DecidableEq, Repr

/-- Bytes copied by the `_extract_video_fast` read loop: it seeks to
`startOffset`, then copies until `endOffset - startOffset` bytes are
written or the source is exhausted. -/
def fastCopyBytes (srcLen startOff endOff : Nat) : Nat :=
  min (endOff - startOff) (srcLen - startOff)

/-- Model of `HikvisionSync._extract_video_fast`: result flag and the size
written at the destination path (`none` when no file was created).  The
destination is opened with mode `wb`, so a successful open always creates
the file, even when zero bytes are copied; any exception yields `False`. -/
def extractVideoFast (e : SegEnv) : Bool × Option Nat :=
  if e.fastOpenOk then
    match e.fastFailAfter with
    | none => (true, some (fastCopyBytes e.fastSrcLen e.fastStartOffset e.fastEndOffset))
    | some k => (false, some (min k (fastCopyBytes e.fastSrcLen e.fastStartOffset e.fastEndOffset)))
  else (false, none)

/-- Content at the destination path after an optional write. -/
def overwriteOpt (prev w : Option Nat) : Option Nat :=
  match w with
  | none => prev
  | some s => some s

/-- The `extraction_result and os.path.exists(...) and os.path.getsize(...) > 0`
check: `new` exactly when success was reported and the destination file
exists with non-zero size. -/
def finalClassify (reported : Bool) (c : Option Nat) : SegOutcome :=
  if reported && (match c with | some s => decide (0 < s) | none => false) then .new
  else .failed

/-- The fast-path leg of the attempt chain: `extraction_result` starts as
`False` and `_extract_video_fast` runs only when
`use_fast_path = use_fast_extraction and media_type == 'video' and same filesystem`. -/
def fastAttempt (cfg : MediaCfg) (e : SegEnv) : Bool × Option Nat :=
  if cfg.useFastExtraction && cfg.mediaIsVideo && cfg.sameFilesystem then
    extractVideoFast e
  else (false, none)

/-- One extraction attempt of `_process_media` (the region guarded by
`extraction_timeout`, plus the success check and the surrounding handlers):
given the current content at `destination_file_path`, returns the
classification, the final content at that path, and whether any write to
the path occurred.  The decoder fallback runs only when the fast path did
not report success; an exception from the decoder escapes to the
per-segment `except Exception` and counts as failed. -/
def attemptResult (cfg : MediaCfg) (e : SegEnv) (prev : Option Nat) :
    SegOutcome × Option Nat × Bool :=
  if effectiveTimeout cfg.extractionTimeoutSeconds < (e.duration : Int) then
    (.timedOut, overwriteOpt prev e.timeoutLeftover, e.timeoutLeftover.isSome)
  else if (fastAttempt cfg e).1 then
    (finalClassify true (overwriteOpt prev (fastAttempt cfg e).2),
      overwriteOpt prev (fastAttempt cfg e).2, (fastAttempt cfg e).2.isSome)
  else if e.adapterRaises then
    (.failed, overwriteOpt (overwriteOpt prev (fastAttempt cfg e).2) e.adapterWrite,
      (fastAttempt cfg e).2.isSome || e.adapterWrite.isSome)
  else
    (finalClassify e.adapterReported
        (overwriteOpt (overwriteOpt prev (fastAttempt cfg e).2) e.adapterWrite),
      overwriteOpt (overwriteOpt prev (fastAttempt cfg e).2) e.adapterWrite,
      (fastAttempt cfg e).2.isSome || e.adapterWrite.isSome)

/-- The recency-window test `cutoff_time and segment_start_time < cutoff_time`. -/
def beforeCutoff (cfg : MediaCfg) (dt : DT) : Bool :=
  match cfg.cutoff with
  | none => false
  | some c => dtLt dt c

/-- One iteration of the `for segment_number, segment_data in enumerate(...)`
loop: classification, updated membership set, updated directory state, and
the list of destination paths written. -/
def processSegment (cfg : MediaCfg) (S : String → Bool) (D : Disk) (e : SegEnv) :
    SegOutcome × (String → Bool) × Disk × List String :=
  match e.startTime with
  | none => (.skippedNoTimestamp, S, D, [])
  | some dt =>
    if beforeCutoff cfg dt then (.skippedOld, S, D, [])
    else
      let name := canonicalName dt cfg.cameraTag (fileExtension cfg)
      if S name then (.existing, S, D, [])
      else
        let r := attemptResult cfg e (D name)
        let D' : Disk := fun m => if m = name then r.2.1 else D m
        let S' : String → Bool :=
          if r.1 = .new then (fun m => if m = name then true else S m) else S
        (r.1, S', D', if r.2.2 then [name] else [])

/-- Result of one `_process_media` pass. -/
structure MediaRun where
  outcomes : List SegOutcome
  finalSet : String → Bool
  disk : Disk
  writes : List String

/-- The segment loop of `_process_media`. -/
def processSegs (cfg : MediaCfg) : List SegEnv → (String → Bool) → Disk → MediaRun
  | [], S, D => ⟨[], S, D, []⟩
  | e :: rest, S, D =>
    let st := processSegment cfg S D e
    let r := processSegs cfg rest st.2.1 st.2.2.1
    ⟨st.1 :: r.outcomes, r.finalSet, r.disk, st.2.2.2 ++ r.writes⟩

/-- Model of `HikvisionSync._process_media` on an existing destination
directory: the membership set is built from the directory listing, then
the segment loop runs. -/
def processMedia (cfg : MediaCfg) (segs : List SegEnv) (D : Disk) : MediaRun :=
  processSegs cfg segs (initialFilesSet D) D

/-- Number of outcomes equal to `o`. -/
def countO (os : List SegOutcome) (o : SegOutcome) : Nat :=
  os.countP fun x => x = o

/-- The statistics dictionary returned by `_process_media`. -/
structure MediaStatsR where
  total : Nat
  existing : Nat
  new : Nat
  failed : Nat
deriving DecidableEq, Repr

/-- Statistics of a `_process_media` pass (the `timed_out` and `skipped`
counters are logged but not returned). -/
def mediaStatsOf (segs : List SegEnv) (r : MediaRun) : MediaStatsR :=
  ⟨segs.length, countO r.outcomes .existing, countO r.outcomes .new, countO r.outcomes .failed⟩

/-! ## Per-camera processing and the run orchestrator

Python control flow with exceptions is embedded with an explicit result
type: `KeyboardInterrupt` derives from `BaseException` and passes through
every `except Exception` handler in the scripts, while ordinary
exceptions are caught at the boundaries shown in the source.  Interrupts
are modelled as occurring during a camera's media processing.
-/

/-- Outcome of a Python block: normal value, `KeyboardInterrupt`, or an
ordinary `Exception`. -/
inductive PyResult (α : Type) where
  | ok (a : α)
  | interrupt
  | exc
deriving DecidableEq, Repr

/-- Environment of one `_process_media` call: whether constructing the
adapter / listing segments raises (caught by its own `try`, yielding
all-zero statistics), the segment list, and the destination directory. -/
structure MediaEnv where
  adapterInitRaises : Bool
  segs : List SegEnv
  disk : Disk

/-- All-zero statistics dictionary. -/
def zeroStats : MediaStatsR := ⟨0, 0, 0, 0⟩

/-- Model of `_process_media` including its outermost `except Exception`
handler, which returns all-zero statistics. -/
def processMediaStats (cfg : MediaCfg) (m : MediaEnv) : MediaStatsR :=
  if m.adapterInitRaises then zeroStats
  else mediaStatsOf m.segs (processMedia cfg m.segs m.disk)

/-- Per-camera environment for `process_camera`. -/
structure CameraEnv where
  cameraTag : String
  sourceExists : Bool
  sameFilesystem : Bool
  video : MediaEnv
  image : MediaEnv
  interrupted : Bool

/-- Run-wide configuration of `HikvisionSync` relevant to `process_camera`. -/
structure SyncCfg where
  syncImages : Bool
  useFastExtraction : Bool
  videoCutoff : Option DT
  imageCutoff : Option DT
  extractionTimeoutSeconds : Int

/-- The `MediaCfg` that `_process_media` sees for a camera's videos. -/
def videoCfgOf (g : SyncCfg) (c : CameraEnv) : MediaCfg :=
  ⟨c.cameraTag, true, g.videoCutoff, g.useFastExtraction, c.sameFilesystem,
    g.extractionTimeoutSeconds⟩

/-- The `MediaCfg` that `_process_media` sees for a camera's images. -/
def imageCfgOf (g : SyncCfg) (c : CameraEnv) : MediaCfg :=
  ⟨c.cameraTag, false, g.imageCutoff, g.useFastExtraction, c.sameFilesystem,
    g.extractionTimeoutSeconds⟩

/-- Statistics pair returned by `process_camera`. -/
structure Stats2 where
  videos : MediaStatsR
  images : MediaStatsR
deriving DecidableEq, Repr

/-- Model of `HikvisionSync.process_camera` (normal-return value): a
missing source directory logs a warning and returns all-zero statistics
for both kinds; otherwise videos are processed and images only when
`sync_images` is enabled. -/
def process_camera (g : SyncCfg) (c : CameraEnv) : Stats2 :=
  if !c.sourceExists then ⟨zeroStats, zeroStats⟩
  else
    ⟨processMediaStats (videoCfgOf g c) c.video,
      if g.syncImages then processMediaStats (imageCfgOf g c) c.image else zeroStats⟩

/-- `process_camera` as a Python block: a `KeyboardInterrupt` during media
processing propagates (its `except Exception` does not catch it). -/
def processCameraR (g : SyncCfg) (c : CameraEnv) : PyResult Stats2 :=
  if !c.sourceExists then .ok ⟨zeroStats, zeroStats⟩
  else if c.interrupted then .interrupt
  else .ok (process_camera g c)

/-- Observable events of a run, for stating trace properties. -/
inductive RunEvent where
  | logAlreadyRunning
  | cameraDone
  | releaseLock
deriving DecidableEq, Repr

/-- The `for source_path, destination_path, camera_tag in self.cameras`
loop of `run`: stops at the first propagating interrupt. -/
def runCameras (g : SyncCfg) : List CameraEnv → PyResult Unit × List RunEvent
  | [] => (.ok (), [])
  | c :: rest =>
    match processCameraR g c with
    | .ok _ =>
      let r := runCameras g rest
      (r.1, .cameraDone :: r.2)
    | .interrupt => (.interrupt, [])
    | .exc => (.exc, [])

/-- Environment of one `HikvisionSync.run` invocation. -/
structure RunEnvS where
  acquireOk : Bool
  createDirsRaises : Bool
  cameras : List CameraEnv

/-- Model of `HikvisionSync.run` (`sync_hikvision_cameras.py`): exit code
and event trace.  Lock-acquisition failure returns 1 before the
`try`/`finally`; afterwards the `finally` appends `releaseLock` on every
path, and `except KeyboardInterrupt` / `except Exception` both map to 1. -/
def runSync (g : SyncCfg) (e : RunEnvS) : Nat × List RunEvent :=
  if !e.acquireOk then (1, [.logAlreadyRunning])
  else
    let body : PyResult Unit × List RunEvent :=
      if e.createDirsRaises then (.exc, [])
      else runCameras g e.cameras
    let code : Nat :=
      match body.1 with
      | .ok _ => 0
      | .interrupt => 1
      | .exc => 1
    (code, body.2 ++ [.releaseLock])

/-- Environment of one `process_hikvision_folder` `run` invocation:
`create_directories` there catches its own exceptions and returns a
boolean, and `run` returns 1 inside the `try` when it is false. -/
structure RunEnvF where
  acquireOk : Bool
  createDirsOk : Bool
  cameraInterrupts : List Bool

/-- Model of `process_hikvision_folder.HikvisionSync.run`: exit code and
whether `release_lock` ran. -/
def runFolder (e : RunEnvF) : Nat × Bool :=
  if !e.acquireOk then (1, false)
  else
    let code : Nat :=
      if !e.createDirsOk then 1
      else if e.cameraInterrupts.any id then 1
      else 0
    (code, true)

/-! ## Retention sweeper (`apply_retention_policy`)

File times are modelled in integer seconds; the cutoff
`datetime.now() - timedelta(days=retention_days)` becomes
`now - retention_days * 86400`.  Each directory entry carries the flags
describing whether `stat` or `unlink` would raise for it.
-/

/-- One directory entry seen by the retention sweep. -/
structure RFile where
  isFile : Bool
  mtime : Int
  size : Nat
  statRaises : Bool
  unlinkRaises : Bool
deriving DecidableEq, Repr

/-- One camera's destination tree as seen by the retention sweep. -/
structure RCam where
  destPresent : Bool
  videoPresent : Bool
  videoFiles : List RFile
  imagesPresent : Bool
  imagesFiles : List RFile
deriving Repr

/-- Whether the sweep deletes this entry: directories are skipped, a
`stat` failure skips the entry, files strictly older than the cutoff are
unlinked, and an `unlink` failure leaves the file (and the counter). -/
def fileSwept (cutoff : Int) (f : RFile) : Bool :=
  f.isFile && !f.statRaises && decide (f.mtime < cutoff) && !f.unlinkRaises

/-- Deletion flags for the `video` and `images` subdirectories of one
camera, absent directories contributing nothing. -/
def cameraSweptFlags (cutoff : Int) (c : RCam) : List Bool × List Bool :=
  if !c.destPresent then ([], [])
  else
    ((if c.videoPresent then c.videoFiles.map (fileSwept cutoff) else []),
      (if c.imagesPresent then c.imagesFiles.map (fileSwept cutoff) else []))

/-- Number of deletions for one camera. -/
def cameraSweptCount (cutoff : Int) (c : RCam) : Nat :=
  ((cameraSweptFlags cutoff c).1.countP id) + ((cameraSweptFlags cutoff c).2.countP id)

/-- Model of `apply_retention_policy`: disabled for
`retention_days <= 0`, otherwise the total number of files deleted. -/
def apply_retention_policy (retentionDays : Int) (now : Int) (cams : List RCam) : Nat :=
  if retentionDays ≤ 0 then 0
  else (cams.map (cameraSweptCount (now - retentionDays * 86400))).sum

/-! ## Concrete fixtures used in counterexamples and witnesses -/

/-- A sample timestamp. -/
def dtA : DT := ⟨2024, 1, 1, 10, 0, 0⟩

/-- A plain video configuration: no recency window, fast path off,
60-second extraction timeout. -/
def cfgV : MediaCfg := ⟨"cam", true, none, false, false, 60⟩

/-- A video configuration with the extraction timeout configured to 0. -/
def cfgT0 : MediaCfg := ⟨"cam", true, none, false, false, 0⟩

/-- A video configuration with the fast path enabled and applicable. -/
def cfgF : MediaCfg := ⟨"cam", true, none, true, true, 60⟩

/-- A segment whose decoder extraction succeeds, writing 100 bytes. -/
def segA : SegEnv := ⟨some dtA, 1, 0, 0, 0, false, none, false, true, some 100, none⟩

/-- A segment whose extraction would run for 1000000 seconds. -/
def segLong : SegEnv := ⟨some dtA, 1000000, 0, 0, 0, false, none, false, true, some 100, none⟩

/-- A segment whose extraction times out after writing a 7-byte partial
file at the destination path. -/
def segTO : SegEnv := ⟨some dtA, 120, 0, 0, 0, false, none, false, true, some 100, some 7⟩

/-- A fast-path segment: byte range 10..100 requested, but the source
file is only 50 bytes long, so the copy is truncated at 40 bytes. -/
def segFast : SegEnv := ⟨some dtA, 1, 50, 10, 100, true, none, false, false, none, none⟩

/-! # Theorems -/

/-! ## Helper lemmas -/

theorem getUniqueLoop_char (ex : String → Bool) (base ts tag ext : String) :
    ∀ (fuel counter : Nat) (fp : String),
      ex (getUniqueLoop ex base ts tag ext counter fuel fp) = false ∨
        getUniqueLoop ex base ts tag ext counter fuel fp =
          pathJoin base (suffixedName ts tag ext (counter + fuel)) := by
  intro fuel
  induction fuel with
  | zero =>
    intro counter fp
    by_cases h : ex fp = true
    · right
      simp [getUniqueLoop, h]
    · left
      simp only [Bool.not_eq_true] at h
      simp [getUniqueLoop, h]
  | succ fuel ih =>
    intro counter fp
    by_cases h : ex fp = true
    · have harith : counter + 1 + fuel = counter + (fuel + 1) := by omega
      have := ih (counter + 1) (pathJoin base (suffixedName ts tag ext counter))
      rw [harith] at this
      simpa [getUniqueLoop, h] using this
    · left
      simp only [Bool.not_eq_true] at h
      simp [getUniqueLoop, h]

/-! ## C4: collision resolution -/

/-- C4: `get_unique_filename` returns the unsuffixed canonical candidate
when it is free; with the base name and `_1`..`_4` all present it returns
the `_5` name; on every input the result is either a non-existing path or
the `_1000` name reached at the 1000-attempt cap, at which the loop stops
and the last attempted name is returned (so the function is total). -/
theorem claim_C4 :
    (∀ (ex : String → Bool) (base ts tag ext : String),
        ex (pathJoin base (baseFilename ts tag ext)) = false →
          get_unique_filename ex base ts tag ext = pathJoin base (baseFilename ts tag ext))
    ∧ get_unique_filename
        (fun n => decide (n ∈ ["base/2024-01-01_10-00-00-test.mp4",
          "base/2024-01-01_10-00-00-test_1.mp4", "base/2024-01-01_10-00-00-test_2.mp4",
          "base/2024-01-01_10-00-00-test_3.mp4", "base/2024-01-01_10-00-00-test_4.mp4"]))
        "base" "2024-01-01_10-00-00" "test" "mp4"
        = pathJoin "base" (suffixedName "2024-01-01_10-00-00" "test" "mp4" 5)
    ∧ (∀ (ex : String → Bool) (base ts tag ext : String),
        ex (get_unique_filename ex base ts tag ext) = false ∨
          get_unique_filename ex base ts tag ext = pathJoin base (suffixedName ts tag ext 1000))
    ∧ (∀ (base ts tag ext : String),
        get_unique_filename (fun _ => true) base ts tag ext =
          pathJoin base (suffixedName ts tag ext 1000)) := by
  refine ⟨?_, ?_, ?_, ?_⟩
  · intro ex base ts tag ext h
    simp [get_unique_filename, getUniqueLoop, h]
  · rfl
  · intro ex base ts tag ext
    have := getUniqueLoop_char ex base ts tag ext 999 1
      (pathJoin base (baseFilename ts tag ext))
    simpa [get_unique_filename] using this
  · intro base ts tag ext
    have := getUniqueLoop_char (fun _ => true) base ts tag ext 999 1
      (pathJoin base (baseFilename ts tag ext))
    rcases this with h | h
    · simp at h
    · simpa [get_unique_filename] using h

/-- C4 witness: the hypothesis of the first conjunct discharged at a
concrete input. -/
theorem claim_C4_witness :
    get_unique_filename (fun _ => false) "b" "t" "c" "mp4" =
      pathJoin "b" (baseFilename "t" "c" "mp4") :=
  claim_C4.1 (fun _ => false) "b" "t" "c" "mp4" rfl

/-! ## C8: retention sweep -/

/-- C8: retention is a no-op returning 0 when `retention_days <= 0`; for
an entry whose `stat`/`unlink` succeed, deletion happens exactly when it
is a regular file with modification time strictly below the cutoff — so a
file exactly at the cutoff is kept and a file one second older is
deleted; directories are never deleted; and a failing entry in the middle
of a directory does not change how the remaining entries are swept. -/
theorem claim_C8 :
    (∀ (days now : Int) (cams : List RCam), days ≤ 0 →
        apply_retention_policy days now cams = 0)
    ∧ (∀ (cutoff : Int) (f : RFile), f.statRaises = false → f.unlinkRaises = false →
        (fileSwept cutoff f = true ↔ f.isFile = true ∧ f.mtime < cutoff))
    ∧ (∀ (cutoff : Int) (f : RFile), f.mtime = cutoff → fileSwept cutoff f = false)
    ∧ (∀ (cutoff : Int) (f : RFile), f.isFile = true → f.statRaises = false →
        f.unlinkRaises = false → f.mtime = cutoff - 1 → fileSwept cutoff f = true)
    ∧ (∀ (cutoff : Int) (f : RFile), f.isFile = false → fileSwept cutoff f = false)
    ∧ (∀ (cutoff : Int) (c : RCam) (pre post : List RFile) (bad : RFile),
        c.destPresent = true → c.videoPresent = true →
        c.videoFiles = pre ++ bad :: post →
        (cameraSweptFlags cutoff c).1 =
          pre.map (fileSwept cutoff) ++
            fileSwept cutoff bad :: post.map (fileSwept cutoff)) := by
  refine ⟨?_, ?_, ?_, ?_, ?_, ?_⟩
  · intro days now cams h
    simp [apply_retention_policy, h]
  · intro cutoff f h1 h2
    simp [fileSwept, h1, h2]
  · intro cutoff f h
    simp [fileSwept, h]
  · intro cutoff f h1 h2 h3 h4
    simp [fileSwept, h1, h2, h3, h4]
  · intro cutoff f h
    simp [fileSwept, h]
  · intro cutoff c pre post bad h1 h2 h3
    simp [cameraSweptFlags, h1, h2, h3]

/-- C8 witness: concrete instances discharging each hypothesis. -/
theorem claim_C8_witness :
    apply_retention_policy 0 1000000 [] = 0 ∧
      fileSwept 100 ⟨true, 99, 5, false, false⟩ = true ∧
      fileSwept 100 ⟨true, 100, 5, false, false⟩ = false ∧
      fileSwept 100 ⟨false, 0, 5, false, false⟩ = false :=
  ⟨claim_C8.1 0 1000000 [] (by decide),
    claim_C8.2.2.2.1 100 ⟨true, 99, 5, false, false⟩ rfl rfl rfl (by decide),
    claim_C8.2.2.1 100 ⟨true, 100, 5, false, false⟩ rfl,
    claim_C8.2.2.2.2.1 100 ⟨false, 0, 5, false, false⟩ rfl⟩

/-! ## C5, C6, C7: orchestrator -/

theorem runCameras_ok (g : SyncCfg) :
    ∀ cams : List CameraEnv, (∀ c ∈ cams, c.interrupted = false) →
      (runCameras g cams).1 = .ok () := by
  intro cams
  induction cams with
  | nil => intro _; rfl
  | cons c rest ih =>
    intro h
    have hc : c.interrupted = false := h c (by simp)
    have hrest := ih fun x hx => h x (by simp [hx])
    by_cases hs : c.sourceExists = true
    · simp [runCameras, processCameraR, hs, hc, hrest]
    · simp only [Bool.not_eq_true] at hs
      simp [runCameras, processCameraR, hs, hrest]

/-- C5: on every exit path of `run` taken after the lock was acquired,
`release_lock` executes as the very last action before returning — in the
sync variant the trace always ends with the release event, and in the
folder variant the release flag is always set. -/
theorem claim_C5 :
    (∀ (g : SyncCfg) (e : RunEnvS), e.acquireOk = true →
        ∃ t, (runSync g e).2 = t ++ [RunEvent.releaseLock])
    ∧ (∀ e : RunEnvF, e.acquireOk = true → (runFolder e).2 = true) := by
  constructor
  · intro g e h
    refine ⟨(if e.createDirsRaises then (PyResult.exc, ([] : List RunEvent))
      else runCameras g e.cameras).2, ?_⟩
    simp [runSync, h]
  · intro e h
    simp [runFolder, h]

/-- C5 witness: a concrete acquired-lock run in each variant. -/
theorem claim_C5_witness :
    (∃ t, (runSync ⟨true, true, none, none, 60⟩ ⟨true, false, []⟩).2 =
        t ++ [RunEvent.releaseLock])
    ∧ (runFolder ⟨true, true, []⟩).2 = true :=
  ⟨claim_C5.1 ⟨true, true, none, none, 60⟩ ⟨true, false, []⟩ rfl,
    claim_C5.2 ⟨true, true, []⟩ rfl⟩

/-- C6: a completed pass returns 0 even when per-segment failures occur
(the statistics never influence the exit code); failure to acquire the
lock returns 1 with the distinct already-running message and no raising;
an unhandled exception (e.g. from directory creation), a user interrupt,
and the folder variant's directory-creation failure each return 1. -/
theorem claim_C6 :
    (∀ (g : SyncCfg) (e : RunEnvS), e.acquireOk = false →
        runSync g e = (1, [RunEvent.logAlreadyRunning]))
    ∧ (∀ e : RunEnvF, e.acquireOk = false → runFolder e = (1, false))
    ∧ (∀ (g : SyncCfg) (e : RunEnvS), e.acquireOk = true →
        e.createDirsRaises = false → (∀ c ∈ e.cameras, c.interrupted = false) →
        (runSync g e).1 = 0)
    ∧ (∀ (g : SyncCfg) (e : RunEnvS), e.acquireOk = true →
        e.createDirsRaises = true → (runSync g e).1 = 1)
    ∧ (∀ (g : SyncCfg) (e : RunEnvS), e.acquireOk = true →
        (runCameras g e.cameras).1 = .interrupt → (runSync g e).1 = 1)
    ∧ (∀ e : RunEnvF, e.acquireOk = true → e.createDirsOk = false →
        runFolder e = (1, true)) := by
  refine ⟨?_, ?_, ?_, ?_, ?_, ?_⟩
  · intro g e h
    simp [runSync, h]
  · intro e h
    simp [runFolder, h]
  · intro g e h1 h2 h3
    have := runCameras_ok g e.cameras h3
    simp [runSync, h1, h2, this]
  · intro g e h1 h2
    simp [runSync, h1, h2]
  · intro g e h1 h2
    by_cases h3 : e.createDirsRaises = true
    · simp [runSync, h1, h3]
    · simp only [Bool.not_eq_true] at h3
      simp [runSync, h1, h3, h2]
  · intro e h1 h2
    simp [runFolder, h1, h2]

/-- C6 witness: concrete runs for the 0-on-success, already-running and
directory-creation-failure paths. -/
theorem claim_C6_witness :
    runSync ⟨true, true, none, none, 60⟩ ⟨false, false, []⟩ =
        (1, [RunEvent.logAlreadyRunning])
    ∧ (runSync ⟨true, true, none, none, 60⟩ ⟨true, false, []⟩).1 = 0
    ∧ (runSync ⟨true, true, none, none, 60⟩ ⟨true, true, []⟩).1 = 1
    ∧ runFolder ⟨true, false, []⟩ = (1, true) :=
  ⟨claim_C6.1 ⟨true, true, none, none, 60⟩ ⟨false, false, []⟩ rfl,
    claim_C6.2.2.1 ⟨true, true, none, none, 60⟩ ⟨true, false, []⟩ rfl rfl
      (by intro c hc; simp at hc),
    claim_C6.2.2.2.1 ⟨true, true, none, none, 60⟩ ⟨true, true, []⟩ rfl rfl,
    claim_C6.2.2.2.2.2 ⟨true, false, []⟩ rfl rfl⟩

/-- C7: a camera whose source path does not exist yields all-zero
statistics for both media kinds, raises nothing (a normal `ok` value),
and the camera loop continues with the remaining cameras exactly as if
that camera had been absent. -/
theorem claim_C7 :
    (∀ (g : SyncCfg) (c : CameraEnv), c.sourceExists = false →
        process_camera g c = ⟨zeroStats, zeroStats⟩
        ∧ processCameraR g c = .ok ⟨zeroStats, zeroStats⟩)
    ∧ (∀ (g : SyncCfg) (c : CameraEnv) (rest : List CameraEnv), c.sourceExists = false →
        runCameras g (c :: rest) =
          ((runCameras g rest).1, .cameraDone :: (runCameras g rest).2)) := by
  constructor
  · intro g c h
    constructor
    · simp [process_camera, h]
    · simp [processCameraR, h]
  · intro g c rest h
    simp [runCameras, processCameraR, h]

/-- C7 witness: a concrete missing-source camera. -/
theorem claim_C7_witness :
    process_camera ⟨true, true, none, none, 60⟩
        ⟨"cam", false, false, ⟨false, [], fun _ => none⟩, ⟨false, [], fun _ => none⟩, false⟩ =
      ⟨zeroStats, zeroStats⟩ :=
  (claim_C7.1 ⟨true, true, none, none, 60⟩
    ⟨"cam", false, false, ⟨false, [], fun _ => none⟩, ⟨false, [], fun _ => none⟩, false⟩ rfl).1

/-! ## C3: timestamp parsing -/

theorem digitVal_digitChar : ∀ k, k < 10 → digitVal? (Nat.digitChar k) = some k := by decide

theorem parse2_pad2 (n : Nat) (h : n ≤ 99) (rest : List Char) :
    parse2 (pad2List n ++ rest) = some (n, rest) := by
  have h1 : n / 10 % 10 < 10 := Nat.mod_lt _ (by norm_num)
  have h2 : n % 10 < 10 := Nat.mod_lt _ (by norm_num)
  simp only [pad2List, List.cons_append, List.nil_append, parse2,
    digitVal_digitChar _ h1, digitVal_digitChar _ h2]
  have : 10 * (n / 10 % 10) + n % 10 = n := by omega
  rw [this]

theorem parse4_pad4 (n : Nat) (h : n ≤ 9999) (rest : List Char) :
    parse4 (pad4List n ++ rest) = some (n, rest) := by
  have e1 : pad4List n ++ rest = pad2List (n / 100) ++ (pad2List (n % 100) ++ rest) := by
    simp [pad4List]
  rw [parse4, e1, parse2_pad2 (n / 100) (by omega)]
  dsimp only
  rw [parse2_pad2 (n % 100) (by omega)]
  dsimp only
  have : 100 * (n / 100) + n % 100 = n := by omega
  rw [this]

theorem expectChar_cons (c : Char) (rest : List Char) :
    expectChar c (c :: rest) = some rest := by
  simp [expectChar]

theorem parseDate_pad (y m d : Nat) (hy : y ≤ 9999) (hm : m ≤ 99) (hd : d ≤ 99)
    (rest : List Char) :
    parseDate (pad4List y ++ '-' :: (pad2List m ++ '-' :: (pad2List d ++ rest))) =
      some (y, m, d, rest) := by
  rw [parseDate, parse4_pad4 y hy]
  dsimp only
  rw [expectChar_cons]
  dsimp only
  rw [parse2_pad2 m hm]
  dsimp only
  rw [expectChar_cons]
  dsimp only
  rw [parse2_pad2 d hd]

theorem parseTime_pad (h mi s : Nat) (hh : h ≤ 99) (hmi : mi ≤ 99) (hs : s ≤ 99)
    (rest : List Char) :
    parseTime (pad2List h ++ ':' :: (pad2List mi ++ ':' :: (pad2List s ++ rest))) =
      some (h, mi, s, rest) := by
  rw [parseTime, parse2_pad2 h hh]
  dsimp only
  rw [expectChar_cons]
  dsimp only
  rw [parse2_pad2 mi hmi]
  dsimp only
  rw [expectChar_cons]
  dsimp only
  rw [parse2_pad2 s hs]

theorem daysInMonth_le (y m : Nat) : daysInMonth y m ≤ 31 := by
  unfold daysInMonth
  split
  · split <;> omega
  · split <;> omega

theorem strptimeFixed_fmtFixed (d : DT) (h : validDT d = true) :
    strptimeFixed (fmtFixed d) = some d := by
  obtain ⟨y, mo, dy, hr, mi, se⟩ := d
  simp only [validDT, decide_eq_true_eq] at h
  obtain ⟨h1, h2, h3, h4, h5, h6, h7, h8, h9⟩ := h
  have hdm := daysInMonth_le y mo
  have hdata : (fmtFixed ⟨y, mo, dy, hr, mi, se⟩).data =
      pad4List y ++ '-' :: (pad2List mo ++ '-' :: (pad2List dy ++
        (' ' :: (pad2List hr ++ ':' :: (pad2List mi ++ ':' :: (pad2List se ++ [])))))) := by
    simp [fmtFixed]
  rw [strptimeFixed, hdata, parseDate_pad y mo dy (by omega) (by omega) (by omega)]
  dsimp only
  rw [expectChar_cons]
  dsimp only
  rw [parseTime_pad hr mi se (by omega) (by omega) (by omega)]
  dsimp only
  have hv : validDT ⟨y, mo, dy, hr, mi, se⟩ = true := by
    simp [validDT]
    omega
  simp [hv]

theorem digitChar_ne_Z : ∀ k, k < 10 → Nat.digitChar k ≠ 'Z' := by decide

theorem noZ_pad2 (n : Nat) : ∀ c ∈ pad2List n, c ≠ 'Z' := by
  intro c hc
  simp only [pad2List, List.mem_cons, List.not_mem_nil, or_false] at hc
  rcases hc with h | h
  · rw [h]; exact digitChar_ne_Z _ (Nat.mod_lt _ (by norm_num))
  · rw [h]; exact digitChar_ne_Z _ (Nat.mod_lt _ (by norm_num))

theorem noZ_pad4 (n : Nat) : ∀ c ∈ pad4List n, c ≠ 'Z' := by
  intro c hc
  simp only [pad4List, List.mem_append] at hc
  rcases hc with h | h
  · exact noZ_pad2 _ c h
  · exact noZ_pad2 _ c h

theorem flatMap_zrep_noZ (l : List Char) (h : ∀ c ∈ l, c ≠ 'Z') :
    (l.flatMap fun c => if c = 'Z' then ['+', '0', '0', ':', '0', '0'] else [c]) = l := by
  induction l with
  | nil => rfl
  | cons c rest ih =>
    have hc : c ≠ 'Z' := h c (by simp)
    simp only [List.flatMap_cons, if_neg hc, List.singleton_append, List.cons.injEq]
    exact ⟨trivial, ih fun x hx => h x (by simp [hx])⟩

theorem flatMap_zrep_append (l1 l2 : List Char) :
    ((l1 ++ l2).flatMap fun c => if c = 'Z' then ['+', '0', '0', ':', '0', '0'] else [c]) =
      (l1.flatMap fun c => if c = 'Z' then ['+', '0', '0', ':', '0', '0'] else [c]) ++
        (l2.flatMap fun c => if c = 'Z' then ['+', '0', '0', ':', '0', '0'] else [c]) := by
  simp [List.flatMap_append]

theorem fmtFixed_ne_empty (d : DT) : fmtFixed d ≠ "" := by
  intro hE
  have := congrArg String.data hE
  simp [fmtFixed, pad4List, pad2List] at this

theorem fmtISOZ_ne_empty (d : DT) : fmtISOZ d ≠ "" := by
  intro hE
  have := congrArg String.data hE
  simp [fmtISOZ, pad4List, pad2List] at this

theorem strptimeFixed_fmtISOZ (d : DT) (h : validDT d = true) :
    strptimeFixed (fmtISOZ d) = none := by
  obtain ⟨y, mo, dy, hr, mi, se⟩ := d
  simp only [validDT, decide_eq_true_eq] at h
  have hdm := daysInMonth_le y mo
  have hdata : (fmtISOZ ⟨y, mo, dy, hr, mi, se⟩).data =
      pad4List y ++ '-' :: (pad2List mo ++ '-' :: (pad2List dy ++
        ('T' :: (pad2List hr ++ ':' :: (pad2List mi ++ ':' :: (pad2List se ++ ['Z'])))))) := by
    simp [fmtISOZ]
  rw [strptimeFixed, hdata, parseDate_pad y mo dy (by omega) (by omega) (by omega)]
  dsimp only
  rw [show expectChar ' ' ('T' :: (pad2List hr ++ ':' :: (pad2List mi ++ ':' ::
    (pad2List se ++ ['Z'])))) = none from by simp [expectChar]]

theorem replaceZ_fmtISOZ (d : DT) :
    (replaceZ (fmtISOZ d)).data =
      pad4List d.year ++ '-' :: (pad2List d.month ++ '-' :: (pad2List d.day ++
        ('T' :: (pad2List d.hour ++ ':' :: (pad2List d.minute ++ ':' ::
          (pad2List d.second ++ ['+', '0', '0', ':', '0', '0'])))))) := by
  obtain ⟨y, mo, dy, hr, mi, se⟩ := d
  have hsplit : (fmtISOZ ⟨y, mo, dy, hr, mi, se⟩).data =
      (pad4List y ++ '-' :: (pad2List mo ++ '-' :: (pad2List dy ++
        ('T' :: (pad2List hr ++ ':' :: (pad2List mi ++ ':' :: pad2List se)))))) ++ ['Z'] := by
    simp [fmtISOZ]
  have hnoz : ∀ c ∈ (pad4List y ++ '-' :: (pad2List mo ++ '-' :: (pad2List dy ++
      ('T' :: (pad2List hr ++ ':' :: (pad2List mi ++ ':' :: pad2List se)))))), c ≠ 'Z' := by
    intro c hc
    simp only [List.mem_append, List.mem_cons] at hc
    rcases hc with h | h | h | h | h | h | h | h | h
    · exact noZ_pad4 y c h
    · rw [h]; decide
    · exact noZ_pad2 mo c h
    · rw [h]; decide
    · exact noZ_pad2 dy c h
    · rw [h]; decide
    · exact noZ_pad2 hr c h
    · rw [h]; decide
    · rcases h with h | h
      · exact noZ_pad2 mi c h
      · rcases h with h | h
        · rw [h]; decide
        · exact noZ_pad2 se c h
  rw [replaceZ]
  show ((fmtISOZ ⟨y, mo, dy, hr, mi, se⟩).data.flatMap fun c =>
    if c = 'Z' then ['+', '0', '0', ':', '0', '0'] else [c]) = _
  rw [hsplit, flatMap_zrep_append, flatMap_zrep_noZ _ hnoz]
  simp [List.append_assoc]

theorem fromiso_fmtISOZ (d : DT) (h : validDT d = true) :
    fromisoformatModel (replaceZ (fmtISOZ d)) = some d := by
  obtain ⟨y, mo, dy, hr, mi, se⟩ := d
  have hv := h
  simp only [validDT, decide_eq_true_eq] at h
  have hdm := daysInMonth_le y mo
  rw [fromisoformatModel, replaceZ_fmtISOZ ⟨y, mo, dy, hr, mi, se⟩,
    parseDate_pad y mo dy (by omega) (by omega) (by omega)]
  dsimp only
  rw [if_pos (Or.inl rfl)]
  rw [parseTime_pad hr mi se (by omega) (by omega) (by omega)]
  dsimp only
  rw [if_pos]
  constructor
  · rfl
  · exact hv

/-- C3: an absent start time, an empty string, and a string that parses
under neither accepted format are all skipped without raising; the fixed
`YYYY-MM-DD HH:MM:SS` form, the ISO-8601 form with trailing `Z`, and the
native datetime value of the same instant all yield that instant and
hence the same canonical filename; and in the segment loop a segment with
no usable start time is counted `skippedNoTimestamp` while processing
continues with the remaining segments. -/
theorem claim_C3 :
    parseSegmentStart none = none
    ∧ parseSegmentStart (some (.str "")) = none
    ∧ parseSegmentStart (some (.str "not-a-timestamp")) = none
    ∧ (∀ s : String, s ≠ "" → strptimeFixed s = none →
        fromisoformatModel (replaceZ s) = none →
        parseSegmentStart (some (.str s)) = none)
    ∧ (∀ d : DT, validDT d = true → ∀ tag ext : String,
        canonicalOfStart (some (.str (fmtFixed d))) tag ext =
            some (canonicalName d tag ext)
          ∧ canonicalOfStart (some (.str (fmtISOZ d))) tag ext =
            some (canonicalName d tag ext)
          ∧ canonicalOfStart (some (.dt d)) tag ext = some (canonicalName d tag ext))
    ∧ (∀ (cfg : MediaCfg) (S : String → Bool) (D : Disk) (e : SegEnv) (rest : List SegEnv),
        e.startTime = none →
        (processSegs cfg (e :: rest) S D).outcomes =
          SegOutcome.skippedNoTimestamp :: (processSegs cfg rest S D).outcomes) := by
  refine ⟨rfl, rfl, rfl, ?_, ?_, ?_⟩
  · intro s hs h1 h2
    simp [parseSegmentStart, hs, h1, h2]
  · intro d hd tag ext
    refine ⟨?_, ?_, rfl⟩
    · simp [canonicalOfStart, parseSegmentStart, fmtFixed_ne_empty d,
        strptimeFixed_fmtFixed d hd]
    · simp [canonicalOfStart, parseSegmentStart, fmtISOZ_ne_empty d,
        strptimeFixed_fmtISOZ d hd, fromiso_fmtISOZ d hd]
  · intro cfg S D e rest h
    simp [processSegs, processSegment, h]

/-- C3 witness: leap-day instant in all three representations, plus a
concretely unparsable string. -/
theorem claim_C3_witness :
    parseSegmentStart (some (.str "29-02-2024 10:00:00")) = none
    ∧ canonicalOfStart (some (.str (fmtFixed ⟨2024, 2, 29, 10, 0, 0⟩))) "test" "mp4" =
        some (canonicalName ⟨2024, 2, 29, 10, 0, 0⟩ "test" "mp4")
    ∧ canonicalOfStart (some (.str (fmtISOZ ⟨2024, 2, 29, 10, 0, 0⟩))) "test" "mp4" =
        some (canonicalName ⟨2024, 2, 29, 10, 0, 0⟩ "test" "mp4")
    ∧ canonicalOfStart (some (.dt ⟨2024, 2, 29, 10, 0, 0⟩)) "test" "mp4" =
        some (canonicalName ⟨2024, 2, 29, 10, 0, 0⟩ "test" "mp4") :=
  ⟨claim_C3.2.2.2.1 "29-02-2024 10:00:00" (by decide) rfl rfl,
    (claim_C3.2.2.2.2.1 ⟨2024, 2, 29, 10, 0, 0⟩ (by decide) "test" "mp4").1,
    (claim_C3.2.2.2.2.1 ⟨2024, 2, 29, 10, 0, 0⟩ (by decide) "test" "mp4").2.1,
    (claim_C3.2.2.2.2.1 ⟨2024, 2, 29, 10, 0, 0⟩ (by decide) "test" "mp4").2.2⟩

/-! ## Media engine helper lemmas -/

theorem overwriteOpt_isSome (prev w : Option Nat) (h : prev.isSome = true) :
    (overwriteOpt prev w).isSome = true := by
  cases w <;> simp [overwriteOpt, h]

theorem overwriteOpt_none {prev w : Option Nat} (h : overwriteOpt prev w = none) :
    prev = none ∧ w = none := by
  cases w <;> simp_all [overwriteOpt]

theorem overwriteOpt_assoc (prev a b : Option Nat) :
    overwriteOpt (overwriteOpt prev a) b = overwriteOpt prev (overwriteOpt a b) := by
  cases a <;> cases b <;> simp [overwriteOpt]

theorem overwriteOpt_isSome_or (a b : Option Nat) :
    (a.isSome || b.isSome) = (overwriteOpt a b).isSome := by
  cases a <;> cases b <;> simp [overwriteOpt]

theorem finalClassify_cases (rep : Bool) (c : Option Nat) :
    finalClassify rep c = .new ∨ finalClassify rep c = .failed := by
  unfold finalClassify
  split <;> simp

theorem finalClassify_none (rep : Bool) : finalClassify rep none = .failed := by
  cases rep <;> rfl

theorem finalClassify_zero (rep : Bool) : finalClassify rep (some 0) = .failed := by
  cases rep <;> rfl

theorem finalClassify_eq_new {rep : Bool} {c : Option Nat} :
    finalClassify rep c = .new ↔ rep = true ∧ ∃ s, c = some s ∧ 0 < s := by
  cases rep <;> cases c <;> simp [finalClassify]
  case true.some s =>
    by_cases h : 0 < s
    · simp [h]
      omega
    · simp [h]
      omega

theorem attempt_shape (cfg : MediaCfg) (e : SegEnv) (prev : Option Nat) :
    ∃ (o : SegOutcome) (w : Option Nat),
      attemptResult cfg e prev = (o, overwriteOpt prev w, w.isSome) := by
  by_cases ht : effectiveTimeout cfg.extractionTimeoutSeconds < (e.duration : Int)
  · exact ⟨.timedOut, e.timeoutLeftover, by simp [attemptResult, ht]⟩
  · by_cases hfa : (fastAttempt cfg e).1 = true
    · exact ⟨finalClassify true (overwriteOpt prev (fastAttempt cfg e).2),
        (fastAttempt cfg e).2, by simp [attemptResult, ht, hfa]⟩
    · by_cases ha : e.adapterRaises = true
      · refine ⟨.failed, overwriteOpt (fastAttempt cfg e).2 e.adapterWrite, ?_⟩
        simp [attemptResult, ht, hfa, ha, overwriteOpt_assoc, overwriteOpt_isSome_or]
      · refine ⟨finalClassify e.adapterReported
            (overwriteOpt (overwriteOpt prev (fastAttempt cfg e).2) e.adapterWrite),
          overwriteOpt (fastAttempt cfg e).2 e.adapterWrite, ?_⟩
        simp [attemptResult, ht, hfa, ha, overwriteOpt_assoc, overwriteOpt_isSome_or]

theorem attempt_fst_cases (cfg : MediaCfg) (e : SegEnv) (prev : Option Nat) :
    (attemptResult cfg e prev).1 = .new ∨ (attemptResult cfg e prev).1 = .failed ∨
      (attemptResult cfg e prev).1 = .timedOut := by
  by_cases ht : effectiveTimeout cfg.extractionTimeoutSeconds < (e.duration : Int)
  · simp [attemptResult, ht]
  · by_cases hfa : (fastAttempt cfg e).1 = true
    · simp only [attemptResult, ht, if_false, hfa, if_true]
      rcases finalClassify_cases true (overwriteOpt prev (fastAttempt cfg e).2) with h | h <;>
        simp [h]
    · by_cases ha : e.adapterRaises = true
      · simp [attemptResult, ht, hfa, ha]
      · simp only [attemptResult, ht, if_false, hfa, ha]
        rcases finalClassify_cases e.adapterReported
          (overwriteOpt (overwriteOpt prev (fastAttempt cfg e).2) e.adapterWrite) with h | h <;>
          simp [h]

theorem attempt_new_some (cfg : MediaCfg) (e : SegEnv) (prev : Option Nat)
    (h : (attemptResult cfg e prev).1 = .new) :
    ∃ s, (attemptResult cfg e prev).2.1 = some s ∧ 0 < s := by
  by_cases ht : effectiveTimeout cfg.extractionTimeoutSeconds < (e.duration : Int)
  · simp [attemptResult, ht] at h
  · by_cases hfa : (fastAttempt cfg e).1 = true
    · simp only [attemptResult, ht, if_false, hfa, if_true] at h ⊢
      rcases finalClassify_eq_new.mp h with ⟨_, s, hs, hpos⟩
      exact ⟨s, hs, hpos⟩
    · by_cases ha : e.adapterRaises = true
      · simp [attemptResult, ht, hfa, ha] at h
      · simp only [attemptResult, ht, if_false, hfa, ha] at h ⊢
        rcases finalClassify_eq_new.mp h with ⟨_, s, hs, hpos⟩
        exact ⟨s, hs, hpos⟩

theorem attempt_c_isSome (cfg : MediaCfg) (e : SegEnv) (prev : Option Nat)
    (h : prev.isSome = true) : ((attemptResult cfg e prev).2.1).isSome = true := by
  rcases attempt_shape cfg e prev with ⟨o, w, hw⟩
  rw [hw]
  exact overwriteOpt_isSome _ _ h

theorem attempt_none (cfg : MediaCfg) (e : SegEnv) (prev : Option Nat)
    (h : (attemptResult cfg e prev).2.1 = none) :
    prev = none ∧ (attemptResult cfg e prev).2.2 = false ∧
      ((attemptResult cfg e prev).1 = .failed ∨ (attemptResult cfg e prev).1 = .timedOut) := by
  rcases attempt_shape cfg e prev with ⟨o, w, hw⟩
  rw [hw] at h ⊢
  rcases overwriteOpt_none h with ⟨hp, hwn⟩
  refine ⟨hp, by simp [hwn], ?_⟩
  rcases attempt_fst_cases cfg e prev with hn | hf | hto
  · rcases attempt_new_some cfg e prev hn with ⟨s, hs, _⟩
    rw [hw] at hs
    rw [h] at hs
    cases hs
  · rw [hw] at hf
    exact Or.inl hf
  · rw [hw] at hto
    exact Or.inr hto



theorem processSegment_noTs (cfg : MediaCfg) (S : String → Bool) (D : Disk) (e : SegEnv)
    (h : e.startTime = none) :
    processSegment cfg S D e = (.skippedNoTimestamp, S, D, []) := by
  simp [processSegment, h]

theorem processSegment_old (cfg : MediaCfg) (S : String → Bool) (D : Disk) (e : SegEnv)
    (dt : DT) (h1 : e.startTime = some dt) (h2 : beforeCutoff cfg dt = true) :
    processSegment cfg S D e = (.skippedOld, S, D, []) := by
  simp [processSegment, h1, h2]

theorem processSegment_existing (cfg : MediaCfg) (S : String → Bool) (D : Disk) (e : SegEnv)
    (dt : DT) (h1 : e.startTime = some dt) (h2 : beforeCutoff cfg dt = false)
    (h3 : S (canonicalName dt cfg.cameraTag (fileExtension cfg)) = true) :
    processSegment cfg S D e = (.existing, S, D, []) := by
  simp [processSegment, h1, h2, h3]

theorem processSegment_extract (cfg : MediaCfg) (S : String → Bool) (D : Disk) (e : SegEnv)
    (dt : DT) (h1 : e.startTime = some dt) (h2 : beforeCutoff cfg dt = false)
    (h3 : S (canonicalName dt cfg.cameraTag (fileExtension cfg)) = false) :
    processSegment cfg S D e =
      ((attemptResult cfg e (D (canonicalName dt cfg.cameraTag (fileExtension cfg)))).1,
        (if (attemptResult cfg e (D (canonicalName dt cfg.cameraTag (fileExtension cfg)))).1
            = .new then
          (fun m => if m = canonicalName dt cfg.cameraTag (fileExtension cfg) then true else S m)
        else S),
        (fun m => if m = canonicalName dt cfg.cameraTag (fileExtension cfg) then
          (attemptResult cfg e (D (canonicalName dt cfg.cameraTag (fileExtension cfg)))).2.1
          else D m),
        (if (attemptResult cfg e (D (canonicalName dt cfg.cameraTag (fileExtension cfg)))).2.2
          then [canonicalName dt cfg.cameraTag (fileExtension cfg)] else [])) := by
  simp [processSegment, h1, h2, h3]

theorem processSegment_disk_mono (cfg : MediaCfg) (S : String → Bool) (D : Disk) (e : SegEnv)
    (n : String) (h : (D n).isSome = true) :
    (((processSegment cfg S D e).2.2.1) n).isSome = true := by
  cases hst : e.startTime with
  | none => rw [processSegment_noTs cfg S D e hst]; exact h
  | some dt =>
    by_cases hbc : beforeCutoff cfg dt = true
    · rw [processSegment_old cfg S D e dt hst hbc]; exact h
    · rw [Bool.not_eq_true] at hbc
      by_cases hS : S (canonicalName dt cfg.cameraTag (fileExtension cfg)) = true
      · rw [processSegment_existing cfg S D e dt hst hbc hS]; exact h
      · rw [Bool.not_eq_true] at hS
        rw [processSegment_extract cfg S D e dt hst hbc hS]
        dsimp only
        by_cases hn : n = canonicalName dt cfg.cameraTag (fileExtension cfg)
        · rw [if_pos hn]
          exact attempt_c_isSome cfg e _ (hn ▸ h)
        · simp only [if_neg hn]
          exact h

theorem processSegment_set_mono (cfg : MediaCfg) (S : String → Bool) (D : Disk) (e : SegEnv)
    (n : String) (h : S n = true) : ((processSegment cfg S D e).2.1) n = true := by
  cases hst : e.startTime with
  | none => rw [processSegment_noTs cfg S D e hst]; exact h
  | some dt =>
    by_cases hbc : beforeCutoff cfg dt = true
    · rw [processSegment_old cfg S D e dt hst hbc]; exact h
    · rw [Bool.not_eq_true] at hbc
      by_cases hS : S (canonicalName dt cfg.cameraTag (fileExtension cfg)) = true
      · rw [processSegment_existing cfg S D e dt hst hbc hS]; exact h
      · rw [Bool.not_eq_true] at hS
        rw [processSegment_extract cfg S D e dt hst hbc hS]
        dsimp only
        split
        · by_cases hn : n = canonicalName dt cfg.cameraTag (fileExtension cfg)
          · simp [hn]
          · simp only [if_neg hn]; exact h
        · exact h

theorem processSegment_sound (cfg : MediaCfg) (S : String → Bool) (D : Disk) (e : SegEnv)
    (h : ∀ n, S n = true → (D n).isSome = true) :
    ∀ n, ((processSegment cfg S D e).2.1) n = true →
      (((processSegment cfg S D e).2.2.1) n).isSome = true := by
  intro n hn
  cases hst : e.startTime with
  | none =>
    rw [processSegment_noTs cfg S D e hst] at hn ⊢
    exact h n hn
  | some dt =>
    by_cases hbc : beforeCutoff cfg dt = true
    · rw [processSegment_old cfg S D e dt hst hbc] at hn ⊢
      exact h n hn
    · rw [Bool.not_eq_true] at hbc
      by_cases hS : S (canonicalName dt cfg.cameraTag (fileExtension cfg)) = true
      · rw [processSegment_existing cfg S D e dt hst hbc hS] at hn ⊢
        exact h n hn
      · rw [Bool.not_eq_true] at hS
        rw [processSegment_extract cfg S D e dt hst hbc hS] at hn ⊢
        dsimp only at hn ⊢
        by_cases hnn : n = canonicalName dt cfg.cameraTag (fileExtension cfg)
        · rw [if_pos hnn]
          by_cases hnew : (attemptResult cfg e
              (D (canonicalName dt cfg.cameraTag (fileExtension cfg)))).1 = .new
          · rcases attempt_new_some cfg e _ hnew with ⟨s, hs, _⟩
            simp [hs]
          · rw [if_neg hnew] at hn
            rw [hnn] at hn
            rw [hn] at hS
            cases hS
        · simp only [if_neg hnn] at hn ⊢
          split at hn
          · simp only [if_neg hnn] at hn
            exact h n hn
          · exact h n hn

theorem processSegment_writes_sub (cfg : MediaCfg) (S : String → Bool) (D : Disk) (e : SegEnv)
    (n : String) (h : n ∈ (processSegment cfg S D e).2.2.2) : S n = false := by
  cases hst : e.startTime with
  | none => rw [processSegment_noTs cfg S D e hst] at h; cases h
  | some dt =>
    by_cases hbc : beforeCutoff cfg dt = true
    · rw [processSegment_old cfg S D e dt hst hbc] at h; cases h
    · rw [Bool.not_eq_true] at hbc
      by_cases hS : S (canonicalName dt cfg.cameraTag (fileExtension cfg)) = true
      · rw [processSegment_existing cfg S D e dt hst hbc hS] at h; cases h
      · rw [Bool.not_eq_true] at hS
        rw [processSegment_extract cfg S D e dt hst hbc hS] at h
        dsimp only at h
        split at h
        · simp only [List.mem_singleton] at h
          rw [h]
          exact hS
        · cases h



theorem processSegs_nil (cfg : MediaCfg) (S : String → Bool) (D : Disk) :
    processSegs cfg [] S D = ⟨[], S, D, []⟩ := rfl

theorem processSegs_cons (cfg : MediaCfg) (e : SegEnv) (rest : List SegEnv)
    (S : String → Bool) (D : Disk) :
    processSegs cfg (e :: rest) S D =
      ⟨(processSegment cfg S D e).1 ::
          (processSegs cfg rest (processSegment cfg S D e).2.1
            (processSegment cfg S D e).2.2.1).outcomes,
        (processSegs cfg rest (processSegment cfg S D e).2.1
          (processSegment cfg S D e).2.2.1).finalSet,
        (processSegs cfg rest (processSegment cfg S D e).2.1
          (processSegment cfg S D e).2.2.1).disk,
        (processSegment cfg S D e).2.2.2 ++
          (processSegs cfg rest (processSegment cfg S D e).2.1
            (processSegment cfg S D e).2.2.1).writes⟩ := rfl

theorem processSegs_disk_mono (cfg : MediaCfg) :
    ∀ (segs : List SegEnv) (S : String → Bool) (D : Disk) (n : String),
      (D n).isSome = true → (((processSegs cfg segs S D).disk) n).isSome = true := by
  intro segs
  induction segs with
  | nil => intro S D n h; exact h
  | cons e rest ih =>
    intro S D n h
    rw [processSegs_cons]
    exact ih _ _ n (processSegment_disk_mono cfg S D e n h)

theorem processSegs_no_write (cfg : MediaCfg) :
    ∀ (segs : List SegEnv) (S : String → Bool) (D : Disk) (n : String),
      S n = true → n ∉ (processSegs cfg segs S D).writes := by
  intro segs
  induction segs with
  | nil => intro S D n h hmem; cases hmem
  | cons e rest ih =>
    intro S D n h hmem
    rw [processSegs_cons] at hmem
    dsimp only at hmem
    rcases List.mem_append.mp hmem with hm | hm
    · have := processSegment_writes_sub cfg S D e n hm
      rw [h] at this
      cases this
    · exact ih _ _ n (processSegment_set_mono cfg S D e n h) hm



theorem rerun_aux (cfg : MediaCfg) :
    ∀ (segs : List SegEnv) (S : String → Bool) (D : Disk),
      (∀ n, S n = true → (D n).isSome = true) →
      ∃ os2 : List SegOutcome,
        processSegs cfg segs (initialFilesSet (processSegs cfg segs S D).disk)
            (processSegs cfg segs S D).disk =
          ⟨os2, initialFilesSet (processSegs cfg segs S D).disk,
            (processSegs cfg segs S D).disk, []⟩
        ∧ List.Forall₂ (fun o1 o2 => o2 ≠ SegOutcome.new ∧
              (o1 = SegOutcome.new → o2 = SegOutcome.existing))
            (processSegs cfg segs S D).outcomes os2 := by
  intro segs
  induction segs with
  | nil =>
    intro S D h
    exact ⟨[], rfl, List.Forall₂.nil⟩
  | cons e rest ih =>
    intro S D h
    cases hst : e.startTime with
    | none =>
      simp only [processSegs_cons]
      rw [processSegment_noTs cfg S D e hst]
      dsimp only
      rcases ih S D h with ⟨os2, heq, hrel⟩
      rw [processSegment_noTs cfg _ _ e hst]
      dsimp only
      rw [heq]
      exact ⟨.skippedNoTimestamp :: os2, rfl,
        List.Forall₂.cons ⟨by simp, by simp⟩ hrel⟩
    | some dt =>
      by_cases hbc : beforeCutoff cfg dt = true
      · simp only [processSegs_cons]
        rw [processSegment_old cfg S D e dt hst hbc]
        dsimp only
        rcases ih S D h with ⟨os2, heq, hrel⟩
        rw [processSegment_old cfg _ _ e dt hst hbc]
        dsimp only
        rw [heq]
        exact ⟨.skippedOld :: os2, rfl,
          List.Forall₂.cons ⟨by simp, by simp⟩ hrel⟩
      · rw [Bool.not_eq_true] at hbc
        by_cases hS : S (canonicalName dt cfg.cameraTag (fileExtension cfg)) = true
        · simp only [processSegs_cons]
          rw [processSegment_existing cfg S D e dt hst hbc hS]
          dsimp only
          rcases ih S D h with ⟨os2, heq, hrel⟩
          have hS2 : initialFilesSet (processSegs cfg rest S D).disk
              (canonicalName dt cfg.cameraTag (fileExtension cfg)) = true :=
            processSegs_disk_mono cfg rest S D _ (h _ hS)
          rw [processSegment_existing cfg _ _ e dt hst hbc hS2]
          dsimp only
          rw [heq]
          exact ⟨.existing :: os2, rfl,
            List.Forall₂.cons ⟨by simp, by simp⟩ hrel⟩
        · rw [Bool.not_eq_true] at hS
          simp only [processSegs_cons]
          rw [processSegment_extract cfg S D e dt hst hbc hS]
          dsimp only
          have hsound := processSegment_sound cfg S D e h
          rw [processSegment_extract cfg S D e dt hst hbc hS] at hsound
          dsimp only at hsound
          rcases ih _ _ hsound with ⟨os2, heq, hrel⟩
          set nm := canonicalName dt cfg.cameraTag (fileExtension cfg) with hnm
          set A := attemptResult cfg e (D nm) with hAdef
          set S1 := (if A.1 = SegOutcome.new then
              (fun m => if m = nm then true else S m) else S) with hS1def
          set D1 := (fun m => if m = nm then A.2.1 else D m : Disk) with hD1def
          set Df := (processSegs cfg rest S1 D1).disk with hDfdef
          by_cases hDf : (Df nm).isSome = true
          · have hS2 : initialFilesSet Df nm = true := hDf
            rw [processSegment_existing cfg _ _ e dt hst hbc hS2]
            dsimp only
            rw [heq]
            exact ⟨.existing :: os2, rfl,
              List.Forall₂.cons ⟨by simp, fun _ => rfl⟩ hrel⟩
          · have hDfn : Df nm = none := by
              cases hD : Df nm with
              | none => rfl
              | some v => rw [hD] at hDf; simp at hDf
            have hA21 : A.2.1 = none := by
              cases hA : A.2.1 with
              | none => rfl
              | some v =>
                have hD1s : (D1 nm).isSome = true := by
                  rw [hD1def]
                  simp [hA]
                have := processSegs_disk_mono cfg rest S1 D1 nm hD1s
                rw [← hDfdef, hDfn] at this
                cases this
            have hattn := attempt_none cfg e (D nm) (by rw [← hAdef]; exact hA21)
            rw [← hAdef] at hattn
            rcases hattn with ⟨hDn, hw, hcase⟩
            have hAnotnew : A.1 ≠ SegOutcome.new := by
              rcases hcase with hc | hc <;> rw [hc] <;> simp
            have hS2f : initialFilesSet Df nm = false := by
              show (Df nm).isSome = false
              rw [hDfn]
              rfl
            rw [processSegment_extract cfg _ _ e dt hst hbc hS2f]
            have hBA : attemptResult cfg e (Df nm) = A := by
              rw [hDfn, hAdef, hDn]
            rw [hBA]
            dsimp only
            rw [if_neg hAnotnew]
            have hdisk : (fun m => if m = nm then A.2.1 else Df m) = Df := by
              funext m
              by_cases hm : m = nm
              · rw [if_pos hm, hA21, hm, hDfn]
              · rw [if_neg hm]
            rw [hdisk]
            have hwr : A.2.2 = false := hw
            rw [hwr]
            rw [heq]
            refine ⟨A.1 :: os2, rfl,
              List.Forall₂.cons ⟨hAnotnew, fun hnew => absurd hnew hAnotnew⟩ hrel⟩



theorem countO_new_zero (os : List SegOutcome) (h : ∀ o ∈ os, o ≠ SegOutcome.new) :
    countO os .new = 0 := by
  rw [countO, List.countP_eq_zero]
  intro a ha
  simpa using h a ha

theorem rel_right_ne_new :
    ∀ {l1 l2 : List SegOutcome},
      List.Forall₂ (fun o1 o2 => o2 ≠ SegOutcome.new ∧
        (o1 = SegOutcome.new → o2 = SegOutcome.existing)) l1 l2 →
      ∀ o ∈ l2, o ≠ SegOutcome.new := by
  intro l1 l2 hf
  induction hf with
  | nil => intro o ho; cases ho
  | cons hr _ ih =>
    intro o ho
    rcases List.mem_cons.mp ho with h | h
    · rw [h]; exact hr.1
    · exact ih o h

/-! ## C1: idempotence of the sync pass -/

/-- C1: with the source segment list, configuration, and extraction
behaviour unchanged, a second `_process_media` pass over the destination
left by the first produces zero `new` files, changes the directory in no
way and performs no writes, every segment counted `new` in the first pass
is counted `existing` in the second, and a canonical filename already
present in the destination before a pass is never written by that pass. -/
theorem claim_C1 (cfg : MediaCfg) (segs : List SegEnv) (D : Disk) :
    (mediaStatsOf segs (processMedia cfg segs (processMedia cfg segs D).disk)).new = 0
    ∧ (processMedia cfg segs (processMedia cfg segs D).disk).disk =
        (processMedia cfg segs D).disk
    ∧ (processMedia cfg segs (processMedia cfg segs D).disk).writes = []
    ∧ List.Forall₂ (fun o1 o2 => o1 = SegOutcome.new → o2 = SegOutcome.existing)
        (processMedia cfg segs D).outcomes
        (processMedia cfg segs (processMedia cfg segs D).disk).outcomes
    ∧ (∀ n, (D n).isSome = true → n ∉ (processMedia cfg segs D).writes) := by
  rcases rerun_aux cfg segs (initialFilesSet D) D (fun n hn => hn) with ⟨os2, heq, hrel⟩
  have h2 : processMedia cfg segs (processMedia cfg segs D).disk =
      ⟨os2, initialFilesSet (processSegs cfg segs (initialFilesSet D) D).disk,
        (processSegs cfg segs (initialFilesSet D) D).disk, []⟩ := heq
  refine ⟨?_, ?_, ?_, ?_, ?_⟩
  · rw [h2]
    exact countO_new_zero os2 (rel_right_ne_new hrel)
  · rw [h2]
    rfl
  · rw [h2]
  · rw [h2]
    exact List.Forall₂.imp (fun a b hab => hab.2) hrel
  · intro n hn
    exact processSegs_no_write cfg segs (initialFilesSet D) D n hn



/-! ## C2: zero-byte handling -/

/-- C2 counterexample: the membership set used for the `existing` dedup
check is built from `os.listdir` filtered only by `os.path.isfile`, so a
pre-existing zero-byte destination file is in the set and dedups its
segment — refuting the claim that the set contains only files of
non-zero size. -/
theorem claim_C2_counterexample :
    (fun n => if n = canonicalName dtA "cam" "mp4" then some 0 else none : Disk)
        (canonicalName dtA "cam" "mp4") = some 0
    ∧ initialFilesSet
        (fun n => if n = canonicalName dtA "cam" "mp4" then some 0 else none)
        (canonicalName dtA "cam" "mp4") = true
    ∧ (processMedia cfgV [segA]
        (fun n => if n = canonicalName dtA "cam" "mp4" then some 0 else none)).outcomes =
      [SegOutcome.existing] := by
  refine ⟨by simp, by simp [initialFilesSet], ?_⟩
  decide

/-! ## C9: extraction timeout -/

/-- C9 counterexample: with the timeout configured to 0 the code passes
999999 seconds to the alarm, and a 1000000-second extraction is still
abandoned as timed out — refuting "no bound is applied"; moreover a
timed-out segment that left a partial file at the destination is counted
`existing` on the next pass, not retried. -/
theorem claim_C9_counterexample :
    effectiveTimeout 0 = 999999
    ∧ (processMedia cfgT0 [segLong] (fun _ => none)).outcomes = [SegOutcome.timedOut]
    ∧ (processMedia cfgV [segTO] (fun _ => none)).outcomes = [SegOutcome.timedOut]
    ∧ (processMedia cfgV [segTO]
        (processMedia cfgV [segTO] (fun _ => none)).disk).outcomes =
      [SegOutcome.existing] := by
  refine ⟨rfl, by decide, by decide, by decide⟩



/-- C2 (amended): an extraction attempt is classified `new` only when the
destination file exists with size strictly greater than 0; a reported
success with a missing or zero-byte destination is `failed`; the
membership set is updated only on `new`; but the initial membership set
contains every regular file of the directory listing regardless of size,
so any listed name — a zero-byte file included — dedups as `existing`. -/
theorem claim_C2 :
    (∀ (cfg : MediaCfg) (e : SegEnv) (prev : Option Nat),
        (attemptResult cfg e prev).1 = .new →
          ∃ s, (attemptResult cfg e prev).2.1 = some s ∧ 0 < s)
    ∧ (∀ rep : Bool, finalClassify rep none = .failed)
    ∧ (∀ rep : Bool, finalClassify rep (some 0) = .failed)
    ∧ (∀ (cfg : MediaCfg) (S : String → Bool) (D : Disk) (e : SegEnv),
        (processSegment cfg S D e).1 ≠ .new → (processSegment cfg S D e).2.1 = S)
    ∧ (∀ (D : Disk) (n : String), initialFilesSet D n = (D n).isSome)
    ∧ (∀ (cfg : MediaCfg) (S : String → Bool) (D : Disk) (e : SegEnv) (dt : DT),
        e.startTime = some dt → beforeCutoff cfg dt = false →
        S (canonicalName dt cfg.cameraTag (fileExtension cfg)) = true →
        (processSegment cfg S D e).1 = .existing) := by
  refine ⟨attempt_new_some, finalClassify_none, finalClassify_zero, ?_, fun _ _ => rfl, ?_⟩
  · intro cfg S D e hne
    cases hst : e.startTime with
    | none => rw [processSegment_noTs cfg S D e hst]
    | some dt =>
      by_cases hbc : beforeCutoff cfg dt = true
      · rw [processSegment_old cfg S D e dt hst hbc]
      · rw [Bool.not_eq_true] at hbc
        by_cases hS : S (canonicalName dt cfg.cameraTag (fileExtension cfg)) = true
        · rw [processSegment_existing cfg S D e dt hst hbc hS]
        · rw [Bool.not_eq_true] at hS
          rw [processSegment_extract cfg S D e dt hst hbc hS] at hne ⊢
          dsimp only at hne ⊢
          rw [if_neg hne]
  · intro cfg S D e dt h1 h2 h3
    rw [processSegment_existing cfg S D e dt h1 h2 h3]

/-- C9 (amended): a segment whose extraction runs longer than a positive
configured timeout is counted `timedOut`, does not join the membership
set, and the loop continues with the next segment; a non-positive
configured timeout is replaced by a 999999-second alarm, under which no
extraction of duration at most 999999 seconds is timed out. -/
theorem claim_C9 :
    (∀ (cfg : MediaCfg) (S : String → Bool) (D : Disk) (e : SegEnv) (dt : DT),
        e.startTime = some dt → beforeCutoff cfg dt = false →
        S (canonicalName dt cfg.cameraTag (fileExtension cfg)) = false →
        0 < cfg.extractionTimeoutSeconds →
        cfg.extractionTimeoutSeconds < (e.duration : Int) →
        (processSegment cfg S D e).1 = .timedOut
        ∧ (processSegment cfg S D e).2.1 = S)
    ∧ (∀ (cfg : MediaCfg) (S : String → Bool) (D : Disk) (e : SegEnv) (rest : List SegEnv),
        (processSegs cfg (e :: rest) S D).outcomes =
          (processSegment cfg S D e).1 ::
            (processSegs cfg rest (processSegment cfg S D e).2.1
              (processSegment cfg S D e).2.2.1).outcomes)
    ∧ (∀ t : Int, t ≤ 0 → effectiveTimeout t = 999999)
    ∧ (∀ (cfg : MediaCfg) (e : SegEnv) (prev : Option Nat),
        (e.duration : Int) ≤ 999999 → cfg.extractionTimeoutSeconds ≤ 0 →
        (attemptResult cfg e prev).1 ≠ .timedOut) := by
  refine ⟨?_, fun _ _ _ _ _ => rfl, ?_, ?_⟩
  · intro cfg S D e dt h1 h2 h3 h4 h5
    have heff : effectiveTimeout cfg.extractionTimeoutSeconds = cfg.extractionTimeoutSeconds := by
      simp [effectiveTimeout, h4]
    have hto : attemptResult cfg e
        (D (canonicalName dt cfg.cameraTag (fileExtension cfg))) =
        (.timedOut, overwriteOpt (D (canonicalName dt cfg.cameraTag (fileExtension cfg)))
          e.timeoutLeftover, e.timeoutLeftover.isSome) := by
      rw [attemptResult, if_pos]
      rw [heff]
      exact h5
    rw [processSegment_extract cfg S D e dt h1 h2 h3]
    dsimp only
    rw [hto]
    dsimp only
    exact ⟨rfl, by rw [if_neg (by simp)]⟩
  · intro t ht
    have : ¬ t > 0 := by omega
    simp [effectiveTimeout, this]
  · intro cfg e prev h1 h2
    have heff : effectiveTimeout cfg.extractionTimeoutSeconds = 999999 := by
      have : ¬ cfg.extractionTimeoutSeconds > 0 := by omega
      simp [effectiveTimeout, this]
    have hnt : ¬ effectiveTimeout cfg.extractionTimeoutSeconds < (e.duration : Int) := by
      rw [heff]
      omega
    rw [attemptResult, if_neg hnt]
    by_cases hfa : (fastAttempt cfg e).1 = true
    · rw [if_pos hfa]
      dsimp only
      rcases finalClassify_cases true (overwriteOpt prev (fastAttempt cfg e).2) with h | h <;>
        rw [h] <;> simp
    · rw [if_neg hfa]
      by_cases ha : e.adapterRaises = true
      · rw [if_pos ha]
        simp
      · rw [if_neg ha]
        dsimp only
        rcases finalClassify_cases e.adapterReported
          (overwriteOpt (overwriteOpt prev (fastAttempt cfg e).2) e.adapterWrite) with h | h <;>
          rw [h] <;> simp



/-! ## C10: fast-path extraction -/

/-- C10: `_extract_video_fast` writes directly (and only) to the final
canonical destination path and returns `True` even when the source ends
before `endOffset - startOffset` bytes were copied; the truncated but
non-empty copy then passes the size check, is counted `new`, and its name
joins the membership set. -/
theorem claim_C10 (cfg : MediaCfg) (S : String → Bool) (D : Disk) (e : SegEnv) (dt : DT)
    (h1 : e.startTime = some dt) (h2 : beforeCutoff cfg dt = false)
    (h3 : S (canonicalName dt cfg.cameraTag "mp4") = false)
    (h4 : cfg.useFastExtraction = true) (h5 : cfg.mediaIsVideo = true)
    (h6 : cfg.sameFilesystem = true)
    (h7 : ¬ effectiveTimeout cfg.extractionTimeoutSeconds < (e.duration : Int))
    (h8 : e.fastOpenOk = true) (h9 : e.fastFailAfter = none)
    (h10 : e.fastStartOffset < e.fastSrcLen) (h11 : e.fastSrcLen < e.fastEndOffset) :
    extractVideoFast e = (true, some (e.fastSrcLen - e.fastStartOffset))
    ∧ e.fastSrcLen - e.fastStartOffset < e.fastEndOffset - e.fastStartOffset
    ∧ 0 < e.fastSrcLen - e.fastStartOffset
    ∧ (processSegment cfg S D e).1 = .new
    ∧ (processSegment cfg S D e).2.1 (canonicalName dt cfg.cameraTag "mp4") = true
    ∧ (processSegment cfg S D e).2.2.1 (canonicalName dt cfg.cameraTag "mp4") =
        some (e.fastSrcLen - e.fastStartOffset)
    ∧ (processSegment cfg S D e).2.2.2 = [canonicalName dt cfg.cameraTag "mp4"] := by
  have hext : fileExtension cfg = "mp4" := by simp [fileExtension, h5]
  have hcopy : fastCopyBytes e.fastSrcLen e.fastStartOffset e.fastEndOffset =
      e.fastSrcLen - e.fastStartOffset := by
    rw [fastCopyBytes, Nat.min_eq_right (by omega)]
  have hfastv : extractVideoFast e = (true, some (e.fastSrcLen - e.fastStartOffset)) := by
    rw [extractVideoFast, if_pos h8, h9, hcopy]
  have hfa : fastAttempt cfg e = (true, some (e.fastSrcLen - e.fastStartOffset)) := by
    rw [fastAttempt, if_pos (by simp [h4, h5, h6]), hfastv]
  have h3' : S (canonicalName dt cfg.cameraTag (fileExtension cfg)) = false := by
    rw [hext]; exact h3
  have hatt : attemptResult cfg e (D (canonicalName dt cfg.cameraTag (fileExtension cfg))) =
      (.new, some (e.fastSrcLen - e.fastStartOffset), true) := by
    rw [attemptResult, if_neg h7, hfa]
    dsimp only
    rw [if_pos rfl]
    have hcl : finalClassify true (overwriteOpt
        (D (canonicalName dt cfg.cameraTag (fileExtension cfg)))
        (some (e.fastSrcLen - e.fastStartOffset))) = .new := by
      apply finalClassify_eq_new.mpr
      exact ⟨rfl, e.fastSrcLen - e.fastStartOffset, rfl, by omega⟩
    rw [show overwriteOpt (D (canonicalName dt cfg.cameraTag (fileExtension cfg)))
        (some (e.fastSrcLen - e.fastStartOffset)) =
        some (e.fastSrcLen - e.fastStartOffset) from rfl] at hcl ⊢
    rw [hcl]
    rfl
  rw [processSegment_extract cfg S D e dt h1 h2 h3']
  dsimp only
  rw [hatt]
  dsimp only
  rw [hext] at h3' ⊢
  refine ⟨hfastv, by omega, by omega, rfl, ?_, ?_, rfl⟩
  · rw [if_pos rfl]
    simp
  · rw [if_pos rfl]

/-- C1 witness: a concrete pre-existing file is never written. -/
theorem claim_C1_witness :
    "keep.mp4" ∉ (processMedia cfgV [segA]
      (fun n => if n = "keep.mp4" then some (5 : Nat) else none)).writes :=
  (claim_C1 cfgV [segA] (fun n => if n = "keep.mp4" then some (5 : Nat) else none)).2.2.2.2
    "keep.mp4" (by decide)

/-- C2 witness: hypotheses of the amended claim discharged concretely. -/
theorem claim_C2_witness :
    (∃ s, (attemptResult cfgV segA none).2.1 = some s ∧ 0 < s)
    ∧ (processSegment cfgV (fun _ => true) (fun _ => none) segA).1 = .existing :=
  ⟨claim_C2.1 cfgV segA none (by decide),
    claim_C2.2.2.2.2.2 cfgV (fun _ => true) (fun _ => none) segA dtA rfl (by decide) rfl⟩

/-- C9 witness: a concrete over-limit segment times out without joining
the set, and the zero-configured alarm bound evaluated concretely. -/
theorem claim_C9_witness :
    ((processSegment cfgV (fun _ => false) (fun _ => none) segTO).1 = .timedOut
      ∧ (processSegment cfgV (fun _ => false) (fun _ => none) segTO).2.1 = (fun _ => false))
    ∧ effectiveTimeout (-3) = 999999
    ∧ (attemptResult cfgT0 segA none).1 ≠ .timedOut :=
  ⟨claim_C9.1 cfgV (fun _ => false) (fun _ => none) segTO dtA rfl (by decide) rfl
      (by decide) (by decide),
    claim_C9.2.2.1 (-3) (by decide),
    claim_C9.2.2.2 cfgT0 segA none (by decide) (by decide)⟩

/-- C10 witness: the 40-byte truncated fast copy of `segFast` is counted
new. -/
theorem claim_C10_witness :
    (processSegment cfgF (fun _ => false) (fun _ => none) segFast).1 = .new
    ∧ extractVideoFast segFast = (true, some 40) :=
  ⟨(claim_C10 cfgF (fun _ => false) (fun _ => none) segFast dtA rfl rfl rfl rfl rfl rfl
      (by decide) rfl rfl (by decide) (by decide)).2.2.2.1,
    (claim_C10 cfgF (fun _ => false) (fun _ => none) segFast dtA rfl rfl rfl rfl rfl rfl
      (by decide) rfl rfl (by decide) (by decide)).1⟩

end HikSync
